import Mathlib

/-!
Verification of the tethys store runtime against its specification.

The development shallowly embeds the core of `store.ts` (the `Store`
class: construction, instance-id allocation, `setState`, `clearState`,
`select`, `_dispatch`) together with the pieces of configuration it
reads (`StoreOptions`, `META_KEY` metadata).  JavaScript values that can
appear inside a state snapshot are modelled by the inductive `JVal`; a
state snapshot (a plain JS object) is an ordered association list of
fields.  Machine-level JS concerns (reference identity, prototype
chains) are outside the model; object spread, `JSON` round-tripping and
the rxjs operators used by the code are modelled by explicit functions
on these values.
-/

/-- A JavaScript value as it can occur in a store state: `null`,
`undefined`, booleans, (integral) numbers, strings and plain objects
given as ordered field lists. -/
inductive JVal where
  | null
  | undef
  | bool (b : Bool)
  | num (n : Int)
  | str (s : String)
  | obj (fields : List (String × JVal))

mutual
def JVal.decEq : (a b : JVal) → Decidable (a = b)
  | .null, .null => .isTrue rfl
  | .null, .undef => .isFalse nofun
  | .null, .bool _ => .isFalse nofun
  | .null, .num _ => .isFalse nofun
  | .null, .str _ => .isFalse nofun
  | .null, .obj _ => .isFalse nofun
  | .undef, .null => .isFalse nofun
  | .undef, .undef => .isTrue rfl
  | .undef, .bool _ => .isFalse nofun
  | .undef, .num _ => .isFalse nofun
  | .undef, .str _ => .isFalse nofun
  | .undef, .obj _ => .isFalse nofun
  | .bool _, .null => .isFalse nofun
  | .bool _, .undef => .isFalse nofun
  | .bool a, .bool b =>
    if h : a = b then .isTrue (by rw [h]) else .isFalse (fun e => h (by injection e))
  | .bool _, .num _ => .isFalse nofun
  | .bool _, .str _ => .isFalse nofun
  | .bool _, .obj _ => .isFalse nofun
  | .num _, .null => .isFalse nofun
  | .num _, .undef => .isFalse nofun
  | .num _, .bool _ => .isFalse nofun
  | .num a, .num b =>
    if h : a = b then .isTrue (by rw [h]) else .isFalse (fun e => h (by injection e))
  | .num _, .str _ => .isFalse nofun
  | .num _, .obj _ => .isFalse nofun
  | .str _, .null => .isFalse nofun
  | .str _, .undef => .isFalse nofun
  | .str _, .bool _ => .isFalse nofun
  | .str _, .num _ => .isFalse nofun
  | .str a, .str b =>
    if h : a = b then .isTrue (by rw [h]) else .isFalse (fun e => h (by injection e))
  | .str _, .obj _ => .isFalse nofun
  | .obj _, .null => .isFalse nofun
  | .obj _, .undef => .isFalse nofun
  | .obj _, .bool _ => .isFalse nofun
  | .obj _, .num _ => .isFalse nofun
  | .obj _, .str _ => .isFalse nofun
  | .obj a, .obj b =>
    match JVal.decEqFields a b with
    | .isTrue h => .isTrue (by rw [h])
    | .isFalse h => .isFalse (fun e => h (by injection e))

def JVal.decEqFields : (a b : List (String × JVal)) → Decidable (a = b)
  | [], [] => .isTrue rfl
  | [], _ :: _ => .isFalse nofun
  | _ :: _, [] => .isFalse nofun
  | (k1, v1) :: r1, (k2, v2) :: r2 =>
    match JVal.decEq v1 v2 with
    | .isTrue hv =>
      match JVal.decEqFields r1 r2 with
      | .isTrue hr =>
        if hk : k1 = k2 then .isTrue (by rw [hk, hv, hr])
        else .isFalse (fun e => hk (by injection e with e1 e2; injection e1))
      | .isFalse hr => .isFalse (fun e => hr (by injection e))
    | .isFalse hv => .isFalse (fun e => hv (by injection e with e1 e2; injection e1))
end

instance : DecidableEq JVal := JVal.decEq

/-- A state snapshot: the field list of a plain JS object. -/
abbrev StateObj := List (String × JVal)

/-- Field access `o[k]` on an object: the value of the first field named
`k`, if any. -/
def lookupKey (k : String) : StateObj → Option JVal
  | [] => none
  | (k1, v) :: rest => if k = k1 then some v else lookupKey k rest

/-- The JS object-spread merge `\x7b...a, ...b\x7d`: fields of `a` in
order, each overridden by `b`'s value when `b` also has the key,
followed by the fields of `b` whose keys do not occur in `a`. -/
def mergeSpread (a b : StateObj) : StateObj :=
  (a.map fun kv => (kv.1, (lookupKey kv.1 b).getD kv.2)) ++
    b.filter fun kv => (lookupKey kv.1 a).isNone

/-- The `setState` of `store.ts` applied to a partial-object argument:
`this.next(\x7b...this.snapshot, ...fn\x7d)`. -/
def setState (snapshot patch : StateObj) : StateObj :=
  mergeSpread snapshot patch

/-- The `setState` of `store.ts` applied to a function argument:
`this.next(\x7b...this.snapshot, ...fn(this.snapshot)\x7d)`. -/
def setStateFn (snapshot : StateObj) (fn : StateObj → StateObj) : StateObj :=
  mergeSpread snapshot (fn snapshot)

mutual
/-- Effect of the `JSON.stringify`/`JSON.parse` round trip of
`cloneInitialState` on a single value: the replacer turns every
`undefined` into `null`; all other modelled values survive unchanged. -/
def normalizeUndefined : JVal → JVal
  | .undef => .null
  | .null => .null
  | .bool b => .bool b
  | .num n => .num n
  | .str s => .str s
  | .obj fs => .obj (normalizeFields fs)

/-- Field-list part of `normalizeUndefined`. -/
def normalizeFields : List (String × JVal) → List (String × JVal)
  | [] => []
  | (k, v) :: rest => (k, normalizeUndefined v) :: normalizeFields rest
end

/-- The `cloneInitialState` of `store.ts`:
`JSON.parse(JSON.stringify(initialState, replacer))` where the replacer
maps `undefined` to `null`.  On the modelled values this is exactly the
recursive `undefined → null` normalization. -/
def cloneInitialState (initialState : StateObj) : StateObj :=
  normalizeFields initialState

/-- The state effect of the built-in `clearState` action of `store.ts`:
`this.setState(this.initialStateCache)`, i.e. a spread merge of the
construction-time cache over the current snapshot. -/
def clearState (initialStateCache snapshot : StateObj) : StateObj :=
  setState snapshot initialStateCache

/-- A field list with no repeated keys, as holds for every JS object
literal. -/
def nodupKeys (l : StateObj) : Prop :=
  (l.map Prod.fst).Nodup

instance (l : StateObj) : Decidable (nodupKeys l) := by
  unfold nodupKeys; infer_instance

-- Instance registry and store construction (`createStoreInstanceId`,
-- `getInstanceMaxCount`, the constructor of `store.ts`).

/-- The recognized fields of `StoreOptions` (`types.ts`): an optional
explicit store name and an optional per-type instance cap. -/
structure StoreOptions where
  name : Option String
  instanceMaxCount : Option Int

/-- JavaScript's `Number.MAX_SAFE_INTEGER`, the "effectively unlimited"
cap substituted for a non-positive `instanceMaxCount`. -/
def maxSafeInteger : Int := 2 ^ 53 - 1

/-- The `getInstanceMaxCount` of `store.ts`: the configured
`instanceMaxCount` when it is a number (with non-positive values mapped
to `Number.MAX_SAFE_INTEGER`), and `20` when no number is configured. -/
def getInstanceMaxCount (options : Option StoreOptions) : Int :=
  match options with
  | none => 20
  | some o =>
    match o.instanceMaxCount with
    | none => 20
    | some n => if n ≤ 0 then maxSafeInteger else n

/-- The `setName` of `store.ts`:
`(this.storeOptions && this.storeOptions.name) || this.getNameByConstructor()`. -/
def setName (options : Option StoreOptions) (ctorName : String) : String :=
  ((options.bind StoreOptions.name).getD ctorName)

/-- The suffix-scanning loop of `createStoreInstanceId`: starting from
`i` with `fuel` iterations left (`fuel` counts the values
`i, i+1, ...` still inside the bound `instanceMaxCount - 1`), return the
first `i` whose id `name-i` is not live, and `0` when the loop finishes
without a break. -/
def scanSuffix (live : List String) (name : String) : Nat → Nat → Nat
  | _, 0 => 0
  | i, fuel + 1 =>
    if live.contains (name ++ "-" ++ toString i) then
      scanSuffix live name (i + 1) fuel
    else i

/-- The `createStoreInstanceId` of `store.ts`, as a function of the
dev-mode flag, the set of live instance ids held by
`InternalStoreFactory`, the store name and the effective instance cap.
`Except.error` models the thrown configuration error. -/
def createStoreInstanceId (devMode : Bool) (live : List String) (name : String)
    (instanceMaxCount : Int) : Except String String :=
  if !live.contains name then .ok name
  else
    let j := scanSuffix live name 1 (instanceMaxCount - 1).toNat
    if j = 0 && devMode then
      .error s!"store '{name}' created more than {instanceMaxCount}, please check it."
    else .ok (name ++ "-" ++ toString j)

/-- The observable result of a completed `Store` constructor: the
allocated instance id, the seeded snapshot (`state$`'s initial value)
and the construction-time `initialStateCache`. -/
structure StoreState where
  instanceId : String
  snapshot : StateObj
  initialStateCache : StateObj

/-- The `Store` constructor of `store.ts`: resolve the name, allocate
the instance id (this may throw, leaving no usable store), then seed
`state$` with the initial state and cache its normalized clone. -/
def constructStore (devMode : Bool) (live : List String) (ctorName : String)
    (options : Option StoreOptions) (initialState : StateObj) :
    Except String StoreState :=
  match createStoreInstanceId devMode live (setName options ctorName)
      (getInstanceMaxCount options) with
  | .error e => .error e
  | .ok id => .ok ⟨id, initialState, cloneInitialState initialState⟩

-- The dispatch pipeline (`_dispatch` of `store.ts`).

/-- The `META_KEY` constant of `types.ts`. -/
def metaKey : String := "__THY_META__"

/-- How a result stream ends, as observed by subscribers: the source
completed, errored, or has not terminated (an `Observable` constructed
with only `observer.next` calls never terminates). -/
inductive StreamEnd where
  | complete
  | error (msg : String)
  | pending
  deriving DecidableEq, Repr

/-- An rxjs result stream, abstracted to the sequence of values it
delivers to a subscriber and the way it ends. -/
structure RStream where
  values : List JVal
  ending : StreamEnd
  deriving DecidableEq

/-- What an action implementation (`actionMeta.originalFn`) can return:
a plain value, a `Promise`, or an `Observable`. -/
inductive ImplReturn where
  | plain (v : JVal)
  | promise (p : Except String JVal)
  | observable (s : RStream)

/-- An action implementation: from the current snapshot and the payload
it produces either a return value or a synchronously thrown error
(`Except.error`), together with the snapshot left behind by any
`setState` calls it made while running. -/
def ActionImpl := StateObj → Option JVal → Except String ImplReturn × StateObj

/-- The store metadata object stored under `META_KEY`
(`StoreMetaInfo.actions` of `inner-types.ts`): action name to
implementation. -/
structure StoreMetaInfo where
  actions : List (String × ActionImpl)

/-- The parts of a `Store` object that `_dispatch` reads and writes: the
optional `META_KEY` metadata, the current snapshot and the
construction-time initial-state cache. -/
structure ModelStore where
  meta : Option StoreMetaInfo
  snapshot : StateObj
  initialStateCache : StateObj

/-- The errors `_dispatch` can throw, tagged by their source; `message`
below renders the exact `Error` message of `store.ts`. -/
inductive DispatchError where
  | metaNotFound
  | actionNotFound (ty : String)
  | implThrow (msg : String)
  deriving DecidableEq, Repr

/-- The message of the `Error` thrown by `_dispatch` for each case. -/
def DispatchError.message : DispatchError → String
  | .metaNotFound => metaKey ++ " is not found, current store has not action"
  | .actionNotFound ty => ty ++ " is not found"
  | .implThrow msg => msg

/-- The rxjs `from(promise)`: a stream delivering the resolved value and
completing, or erroring with the rejection. -/
def fromPromise : Except String JVal → RStream
  | .ok v => ⟨[v], .complete⟩
  | .error m => ⟨[], .error m⟩

/-- The `result.pipe(map((r) => r))` applied to an `Observable` result:
the identity mapping over every delivered value. -/
def mapIdStream (s : RStream) : RStream :=
  ⟨s.values.map fun r => r, s.ending⟩

/-- The `new Observable((observer) => \x7b observer.next(\x7b\x7d) \x7d)`
built for a non-`Observable`, non-`Promise` result: one empty-object
value and no termination. -/
def plainResultStream : RStream :=
  ⟨[JVal.obj []], .pending⟩

/-- The trailing `.pipe(shareReplay())`: multicast with replay, which
delivers the same values and ending to every subscriber. -/
def shareReplayStream (s : RStream) : RStream :=
  s

/-- Lookup of an action implementation in the metadata
(`meta.actions[action.type]`). -/
def lookupAction (ty : String) : List (String × ActionImpl) → Option ActionImpl
  | [] => none
  | (k, f) :: rest => if ty = k then some f else lookupAction ty rest

/-- The result-normalization chain of `_dispatch` applied to a returned
value: `Promise`s become single-value streams via `from`, `Observable`s
pass through `map((r) => r)`, and anything else is replaced by a
single-`\x7b\x7d` stream; every branch ends in `shareReplay()`. -/
def normalizeResult : ImplReturn → RStream
  | .plain _ => shareReplayStream plainResultStream
  | .promise p => shareReplayStream (mapIdStream (fromPromise p))
  | .observable s => shareReplayStream (mapIdStream s)

/-- The `_dispatch` of `store.ts` on the modelled store: check
`META_KEY` metadata, resolve the action, run the implementation on
`(this.snapshot, action.payload)`, and normalize the result.  A
synchronous throw of the implementation escapes as `Except.error`
(line 102 runs outside any `Observable`), and the store's snapshot is
whatever the implementation left behind; the two lookup failures throw
before any implementation runs. -/
def dispatchInternal (store : ModelStore) (ty : String) (payload : Option JVal) :
    Except DispatchError RStream × ModelStore :=
  match store.meta with
  | none => (.error .metaNotFound, store)
  | some meta =>
    match lookupAction ty meta.actions with
    | none => (.error (.actionNotFound ty), store)
    | some impl =>
      match impl store.snapshot payload with
      | (.error m, s1) => (.error (.implThrow m), { store with snapshot := s1 })
      | (.ok ret, s1) => (.ok (normalizeResult ret), { store with snapshot := s1 })

-- The `select` pipeline: `this.state$.pipe(map(selector), distinctUntilChanged())`.

/-- The rxjs `distinctUntilChanged()` after an initial emission `prev`:
drop each element equal to the most recently emitted one, keep the
others. -/
def dedupRun {α : Type} [DecidableEq α] (prev : α) : List α → List α
  | [] => []
  | b :: rest => if b = prev then dedupRun prev rest else b :: dedupRun b rest

/-- The values delivered by `select(selector)` subscribed on a
`BehaviorSubject` currently holding `current`, after which the snapshots
`updates` are published in order: the projection of the current value is
delivered immediately, then `map(selector)` followed by
`distinctUntilChanged()` filters the rest. -/
def selectEmissions {α : Type} [DecidableEq α] (selector : StateObj → α)
    (current : StateObj) (updates : List StateObj) : List α :=
  selector current :: dedupRun (selector current) (updates.map selector)

/-- An action implementation returning the plain number `5` without
touching the state. -/
def plainFive : ActionImpl := fun s _ => (.ok (.plain (JVal.num 5)), s)

/-- An action implementation that throws synchronously. -/
def throwBoom : ActionImpl := fun s _ => (.error "boom", s)

/-- A store whose metadata registers `add` as `plainFive`. -/
def storePlain : ModelStore := ⟨some ⟨[("add", plainFive)]⟩, [], []⟩

/-- A store whose metadata registers `bad` as `throwBoom`. -/
def storeThrow : ModelStore := ⟨some ⟨[("bad", throwBoom)]⟩, [], []⟩

-- Basic lookup lemmas.

theorem lookupKey_append (k : String) (a b : StateObj) :
    lookupKey k (a ++ b) = (lookupKey k a).or (lookupKey k b) := by
  induction a with
  | nil => simp [lookupKey]
  | cons kv rest ih =>
    obtain ⟨k1, v⟩ := kv
    by_cases h : k = k1 <;> simp [lookupKey, h, ih]

theorem lookupKey_map_override (k : String) (a : StateObj) (g : String → JVal → JVal) :
    lookupKey k (a.map fun kv => (kv.1, g kv.1 kv.2)) =
      (lookupKey k a).map (g k) := by
  induction a with
  | nil => simp [lookupKey]
  | cons kv rest ih =>
    obtain ⟨k1, v⟩ := kv
    by_cases h : k = k1
    · subst h; simp [lookupKey]
    · simp [lookupKey, h, ih]

theorem lookupKey_filter_key (k : String) (b : StateObj) (p : String → Bool) :
    lookupKey k (b.filter fun kv => p kv.1) =
      if p k then lookupKey k b else none := by
  induction b with
  | nil => simp [lookupKey]
  | cons kv rest ih =>
    obtain ⟨k1, v⟩ := kv
    by_cases h : k = k1
    · subst h
      by_cases hp : p k <;> simp [List.filter, lookupKey, hp, ih]
    · by_cases hp : p k1 <;> simp [List.filter, lookupKey, hp, ih, h]

/-- Lookup in a spread merge: the right (later) object wins, the left
object is the fallback. -/
theorem lookupKey_mergeSpread (k : String) (a b : StateObj) :
    lookupKey k (mergeSpread a b) = (lookupKey k b).or (lookupKey k a) := by
  unfold mergeSpread
  rw [lookupKey_append, lookupKey_map_override k a (fun k1 v => (lookupKey k1 b).getD v),
    lookupKey_filter_key k b (fun k1 => (lookupKey k1 a).isNone)]
  cases ha : lookupKey k a <;> cases hb : lookupKey k b <;> simp [ha, hb, Option.or]

-- Characterization of the scanning loop.

theorem scanSuffix_eq_zero (live : List String) (name : String) :
    ∀ fuel start, (∀ i, start ≤ i → i < start + fuel →
      live.contains (name ++ "-" ++ toString i) = true) →
    scanSuffix live name start fuel = 0 := by
  intro fuel
  induction fuel with
  | zero => intro start _; rfl
  | succ n ih =>
    intro start h
    have hs : live.contains (name ++ "-" ++ toString start) = true :=
      h start le_rfl (by omega)
    simp only [scanSuffix, hs, if_true]
    exact ih (start + 1) fun i h1 h2 => h i (by omega) (by omega)

theorem scanSuffix_eq_first_free (live : List String) (name : String) :
    ∀ fuel start k, start ≤ k → k < start + fuel →
    live.contains (name ++ "-" ++ toString k) = false →
    (∀ i, start ≤ i → i < k → live.contains (name ++ "-" ++ toString i) = true) →
    scanSuffix live name start fuel = k := by
  intro fuel
  induction fuel with
  | zero => intro start k h1 h2; omega
  | succ n ih =>
    intro start k h1 h2 hfree hmin
    rcases Nat.eq_or_lt_of_le h1 with heq | hlt
    · subst heq
      simp only [scanSuffix, hfree]
      rfl
    · have hs : live.contains (name ++ "-" ++ toString start) = true :=
        hmin start le_rfl hlt
      simp only [scanSuffix, hs, if_true]
      exact ih (start + 1) k (by omega) (by omega) hfree
        fun i hi1 hi2 => hmin i (by omega) hi2

theorem dedupRun_chain {α : Type} [DecidableEq α] (l : List α) :
    ∀ prev : α, List.Chain' (fun a b => a ≠ b) (prev :: dedupRun prev l) := by
  induction l with
  | nil => intro prev; simp [dedupRun]
  | cons b rest ih =>
    intro prev
    by_cases h : b = prev
    · simpa [dedupRun, h] using ih prev
    · have hb := ih b
      simp only [dedupRun, h, if_false]
      exact List.Chain'.cons (fun e => h e.symm) hb

theorem dedupRun_append_single {α : Type} [DecidableEq α] (l : List α) :
    ∀ (prev x : α), dedupRun prev (l ++ [x]) =
      dedupRun prev l ++ (if x = l.getLastD prev then [] else [x]) := by
  induction l with
  | nil => intro prev x; by_cases h : x = prev <;> simp [dedupRun, h]
  | cons b rest ih =>
    intro prev x
    by_cases h : b = prev
    · subst h
      simp only [List.cons_append, dedupRun, if_true, List.getLastD_cons, List.append_eq]
      rw [ih b x]
    · simp only [List.cons_append, dedupRun, h, if_false, List.getLastD_cons, List.append_eq]
      rw [ih b x]

-- Idempotence machinery for `clearState` (C10).

theorem lookupKey_isSome_of_mem {kv : String × JVal} {l : StateObj}
    (h : kv ∈ l) : (lookupKey kv.1 l).isSome := by
  induction l with
  | nil => cases h
  | cons hd tl ih =>
    obtain ⟨k1, v1⟩ := hd
    rcases List.mem_cons.mp h with heq | hmem
    · subst heq; simp [lookupKey]
    · by_cases hk : kv.1 = k1 <;> simp [lookupKey, hk, ih hmem]

theorem lookupKey_of_nodupKeys {k : String} {v : JVal} {l : StateObj}
    (hnd : nodupKeys l) (h : (k, v) ∈ l) : lookupKey k l = some v := by
  induction l with
  | nil => cases h
  | cons hd tl ih =>
    obtain ⟨k1, v1⟩ := hd
    have hnd1 : nodupKeys tl := (List.nodup_cons.mp hnd).2
    rcases List.mem_cons.mp h with heq | hmem
    · injection heq with e1 e2; subst e1; subst e2; simp [lookupKey]
    · have hne : k ≠ k1 := by
        intro e; subst e
        exact (List.nodup_cons.mp hnd).1
          (List.mem_map.mpr ⟨(k, v), hmem, rfl⟩)
      simp [lookupKey, hne, ih hnd1 hmem]

/-- A second spread of the same object over an already-merged object
changes nothing: the JS identity behind the idempotence of
`clearState`. -/
theorem mergeSpread_idem (s c : StateObj) (hnd : nodupKeys c) :
    mergeSpread (mergeSpread s c) c = mergeSpread s c := by
  have hfilter : (c.filter fun kv => (lookupKey kv.1 (mergeSpread s c)).isNone) = [] := by
    rw [List.filter_eq_nil_iff]
    intro kv hmem
    have h1 : (lookupKey kv.1 c).isSome := lookupKey_isSome_of_mem hmem
    rw [lookupKey_mergeSpread]
    rcases Option.isSome_iff_exists.mp h1 with ⟨w, hw⟩
    simp [hw, Option.or]
  have hmap : ((mergeSpread s c).map fun kv => (kv.1, (lookupKey kv.1 c).getD kv.2)) =
      mergeSpread s c := by
    have : ∀ kv ∈ mergeSpread s c, (kv.1, (lookupKey kv.1 c).getD kv.2) = kv := by
      intro kv hmem
      rcases List.mem_append.mp hmem with hleft | hright
      · rcases List.mem_map.mp hleft with ⟨⟨k0, v0⟩, _, heq⟩
        subst heq
        cases hc : lookupKey k0 c <;> simp [hc]
      · have hc : kv ∈ c := List.mem_of_mem_filter hright
        obtain ⟨k0, v0⟩ := kv
        rw [lookupKey_of_nodupKeys hnd hc]
        rfl
    calc ((mergeSpread s c).map fun kv => (kv.1, (lookupKey kv.1 c).getD kv.2))
        = (mergeSpread s c).map id := List.map_congr_left this
      _ = mergeSpread s c := List.map_id _
  show ((mergeSpread s c).map fun kv => (kv.1, (lookupKey kv.1 c).getD kv.2)) ++
      (c.filter fun kv => (lookupKey kv.1 (mergeSpread s c)).isNone) = mergeSpread s c
  rw [hfilter, hmap, List.append_nil]

/-- Normalization keeps the key sequence of an object unchanged. -/
theorem normalizeFields_keys (l : StateObj) :
    (normalizeFields l).map Prod.fst = l.map Prod.fst := by
  induction l with
  | nil => rfl
  | cons hd tl ih =>
    obtain ⟨k, v⟩ := hd
    simp [normalizeFields, ih]

theorem nodupKeys_cloneInitialState {l : StateObj} (h : nodupKeys l) :
    nodupKeys (cloneInitialState l) := by
  unfold nodupKeys cloneInitialState at *
  rwa [normalizeFields_keys]

-- Auxiliary lemmas for the dispatch pipeline and select.

theorem mapIdStream_id (s : RStream) : mapIdStream s = s := by
  cases s with
  | mk vs e => simp [mapIdStream]

theorem getLastD_map {α β : Type} (f : α → β) (l : List α) (d : α) :
    (l.map f).getLastD (f d) = f (l.getLastD d) := by
  induction l generalizing d with
  | nil => rfl
  | cons b t ih => rw [List.map_cons, List.getLastD_cons, List.getLastD_cons, ih]

-- Claim theorems.

/-- C1: with `instanceMaxCount = 3` and live instances `X`, `X-1`,
`X-2`, constructing a fourth `X` store in dev mode fails with the
configuration error (so no store state comes into existence), while in
production mode construction succeeds and the new instance gets the id
`X-0`, i.e. reuses suffix `0`. -/
theorem c1_fourth_instance_dev_error_prod_suffix0 :
    constructStore true ["X", "X-1", "X-2"] "X" (some ⟨none, some 3⟩) [] =
      .error "store 'X' created more than 3, please check it." ∧
    constructStore false ["X", "X-1", "X-2"] "X" (some ⟨none, some 3⟩) [] =
      .ok ⟨"X-0", [], []⟩ :=
  ⟨rfl, rfl⟩

/-- C4: when the bare type name is not a live instance id,
`createStoreInstanceId` assigns the bare type name; otherwise it
assigns `name-k` for the first suffix `k` in `1..instanceMaxCount-1`
(in increasing order) that is not used by any live instance. -/
theorem c4_instance_id_allocation (devMode : Bool) (live : List String)
    (name : String) (instanceMaxCount : Int) :
    (live.contains name = false →
      createStoreInstanceId devMode live name instanceMaxCount = .ok name) ∧
    (live.contains name = true →
      ∀ k : Nat, 1 ≤ k → (k : Int) ≤ instanceMaxCount - 1 →
        live.contains (name ++ "-" ++ toString k) = false →
        (∀ i : Nat, 1 ≤ i → i < k →
          live.contains (name ++ "-" ++ toString i) = true) →
        createStoreInstanceId devMode live name instanceMaxCount =
          .ok (name ++ "-" ++ toString k)) := by
  constructor
  · intro h
    unfold createStoreInstanceId
    rw [h]
    rfl
  · intro h k hk1 hk2 hkfree hkmin
    have h0 : (0 : Int) ≤ instanceMaxCount - 1 := by
      have h1 : (1 : Int) ≤ (k : Int) := by exact_mod_cast hk1
      omega
    have hbound : k ≤ (instanceMaxCount - 1).toNat := (Int.le_toNat h0).mpr hk2
    have hscan := scanSuffix_eq_first_free live name (instanceMaxCount - 1).toNat 1 k
      hk1 (by omega) hkfree hkmin
    have hk0 : ¬(k = 0) := by omega
    unfold createStoreInstanceId
    rw [h]
    simp only [hscan]
    simp [hk0]

/-- C4 witness: on concrete registries, a fresh name gets the bare id
and a second `X` instance alongside `X` and `X-1` gets `X-2`. -/
theorem c4_instance_id_allocation_witness :
    createStoreInstanceId false ["Y"] "X" 20 = .ok "X" ∧
    createStoreInstanceId false ["X", "X-1"] "X" 20 = .ok ("X" ++ "-" ++ toString 2) := by
  constructor
  · exact (c4_instance_id_allocation false ["Y"] "X" 20).1 (by decide)
  · exact (c4_instance_id_allocation false ["X", "X-1"] "X" 20).2 (by decide) 2
      (by decide) (by decide) (by decide)
      (by
        intro i h1 h2
        have he : i = 1 := by omega
        subst he
        decide)

/-- C8: the effective instance cap is the configured `instanceMaxCount`
when positive, `Number.MAX_SAFE_INTEGER` (effectively unlimited) when
it is `0`, and `20` when no `instanceMaxCount` is configured (whether
options are absent or merely lack the field). -/
theorem c8_effective_instance_cap (n : Int) (nameOpt : Option String) :
    (0 < n → getInstanceMaxCount (some ⟨nameOpt, some n⟩) = n) ∧
    getInstanceMaxCount (some ⟨nameOpt, some 0⟩) = maxSafeInteger ∧
    getInstanceMaxCount (some ⟨nameOpt, none⟩) = 20 ∧
    getInstanceMaxCount none = 20 := by
  refine ⟨fun h => ?_, rfl, rfl, rfl⟩
  simp [getInstanceMaxCount]
  omega

/-- C8 witness: a configured positive cap of `7` is used verbatim. -/
theorem c8_effective_instance_cap_witness :
    (0 : Int) < 7 ∧ getInstanceMaxCount (some ⟨none, some 7⟩) = 7 :=
  ⟨by decide, (c8_effective_instance_cap 7 none).1 (by decide)⟩

/-- C6: `setState` with a partial object `p` (resp. with a function
`f`) publishes the shallow merge of `p` (resp. `f` applied to the
current snapshot) over the current snapshot: looking up any key yields
the patch's value when the patch has the key and the old snapshot's
value otherwise, with patch values — nested objects included — taken
wholesale, never deep-merged. -/
theorem c6_setState_shallow_merge (s p : StateObj) (f : StateObj → StateObj)
    (k : String) :
    lookupKey k (setState s p) = (lookupKey k p).or (lookupKey k s) ∧
    lookupKey k (setStateFn s f) = (lookupKey k (f s)).or (lookupKey k s) :=
  ⟨lookupKey_mergeSpread k s p, lookupKey_mergeSpread k s (f s)⟩

/-- C7: `select(selector)` delivers the projection of the current
snapshot immediately on subscription, never emits two equal consecutive
values, and appending one more published snapshot adds an emission
exactly when its projection differs from the projection of the previous
last snapshot — in particular an update that leaves the projection
unchanged causes no emission. -/
theorem c7_select_distinct_until_changed {α : Type} [DecidableEq α]
    (selector : StateObj → α) (current s : StateObj) (updates : List StateObj) :
    (selectEmissions selector current updates).head? = some (selector current) ∧
    List.Chain' (fun a b => a ≠ b) (selectEmissions selector current updates) ∧
    selectEmissions selector current (updates ++ [s]) =
      selectEmissions selector current updates ++
        (if selector s = selector (updates.getLastD current) then []
         else [selector s]) := by
  refine ⟨rfl, dedupRun_chain _ _, ?_⟩
  unfold selectEmissions
  rw [List.map_append]
  simp only [List.map_cons, List.map_nil]
  rw [dedupRun_append_single (updates.map selector) (selector current) (selector s),
    getLastD_map selector updates current, List.cons_append]

/-- C3 counterexample: with initial state `(a: 0)`, one intervening
`setState` adding the field `b`, `clearState` does NOT restore a
snapshot deep-equal to the round-tripped initial state: the added field
`b` is still present afterwards. -/
theorem c3_clearState_restores_counterexample :
    clearState (cloneInitialState [("a", JVal.num 0)])
        (setState [("a", JVal.num 0)] [("b", JVal.num 1)]) ≠
      cloneInitialState [("a", JVal.num 0)] ∧
    lookupKey "b" (clearState (cloneInitialState [("a", JVal.num 0)])
        (setState [("a", JVal.num 0)] [("b", JVal.num 1)])) =
      some (JVal.num 1) := by
  constructor
  · decide
  · decide

/-- C3 (amended): `clearState()` publishes the shallow merge of the
normalized (`undefined → null`) construction-time initial state over
the current snapshot: every key of the initial state is restored to its
normalized construction-time value, while fields added by intervening
`setState` calls that are absent from the initial state keep their
current values and remain present. -/
theorem c3_clearState_merges_initial (initialState s : StateObj) (k : String) :
    lookupKey k (clearState (cloneInitialState initialState) s) =
      (lookupKey k (cloneInitialState initialState)).or (lookupKey k s) :=
  lookupKey_mergeSpread k s (cloneInitialState initialState)

/-- C10: `clearState` is idempotent — because the initial-state cache is
fixed at construction, applying the `clearState` state effect twice from
any snapshot yields the same snapshot as applying it once. -/
theorem c10_clearState_idempotent (initialState s : StateObj)
    (h : nodupKeys initialState) :
    clearState (cloneInitialState initialState)
        (clearState (cloneInitialState initialState) s) =
      clearState (cloneInitialState initialState) s :=
  mergeSpread_idem s (cloneInitialState initialState) (nodupKeys_cloneInitialState h)

/-- C10 witness: idempotence at the concrete initial state `(a: 0)` and
snapshot `(b: 5)`. -/
theorem c10_clearState_idempotent_witness :
    nodupKeys [("a", JVal.num 0)] ∧
    clearState (cloneInitialState [("a", JVal.num 0)])
        (clearState (cloneInitialState [("a", JVal.num 0)]) [("b", JVal.num 5)]) =
      clearState (cloneInitialState [("a", JVal.num 0)]) [("b", JVal.num 5)] :=
  ⟨by decide, c10_clearState_idempotent [("a", JVal.num 0)] [("b", JVal.num 5)] (by decide)⟩

/-- C5: dispatching an action name that the store's metadata does not
register throws the action-not-found error synchronously — the result is
an error, never a silent no-op — and the store (in particular its
snapshot) is returned unchanged. -/
theorem c5_unknown_action_error (store : ModelStore) (m : StoreMetaInfo)
    (ty : String) (payload : Option JVal)
    (hmeta : store.meta = some m) (hact : lookupAction ty m.actions = none) :
    dispatchInternal store ty payload = (.error (.actionNotFound ty), store) := by
  obtain ⟨mo, snap, cache⟩ := store
  have hm : mo = some m := hmeta
  subst hm
  simp only [dispatchInternal]
  rw [hact]

/-- C5 witness: dispatching `missing` on a store whose metadata only
registers `add` errors and leaves the store unchanged. -/
theorem c5_unknown_action_error_witness :
    dispatchInternal ⟨some ⟨[("add", plainFive)]⟩, [("a", JVal.num 1)], []⟩
        "missing" none =
      (.error (.actionNotFound "missing"),
        ⟨some ⟨[("add", plainFive)]⟩, [("a", JVal.num 1)], []⟩) :=
  c5_unknown_action_error ⟨some ⟨[("add", plainFive)]⟩, [("a", JVal.num 1)], []⟩
    ⟨[("add", plainFive)]⟩ "missing" none rfl rfl

/-- C9: dispatching any action on a store without `META_KEY` metadata
throws the meta-not-found error synchronously, before any action is
resolved or run, leaving the store unchanged; this error is distinct
from the action-not-found error, both as a tagged error and in its
rendered `Error` message. -/
theorem c9_meta_not_found_error (store : ModelStore) (ty : String)
    (payload : Option JVal) (h : store.meta = none) :
    dispatchInternal store ty payload = (.error .metaNotFound, store) ∧
    DispatchError.metaNotFound ≠ DispatchError.actionNotFound ty ∧
    DispatchError.metaNotFound.message ≠
      (DispatchError.actionNotFound ty).message := by
  refine ⟨?_, nofun, ?_⟩
  · unfold dispatchInternal
    rw [h]
  · intro hmsg
    have h2 := congrArg (fun s : String => s.data.getLast?) hmsg
    simp [DispatchError.message, metaKey, String.data_append,
      List.getLast?_append, Option.or] at h2

/-- C9 witness: dispatching `inc` on a metadata-less store errors with
the meta-not-found error and leaves the store unchanged. -/
theorem c9_meta_not_found_error_witness :
    dispatchInternal ⟨none, [("a", JVal.num 1)], []⟩ "inc" none =
      (.error .metaNotFound, ⟨none, [("a", JVal.num 1)], []⟩) ∧
    DispatchError.metaNotFound ≠ DispatchError.actionNotFound "inc" :=
  ⟨(c9_meta_not_found_error ⟨none, [("a", JVal.num 1)], []⟩ "inc" none rfl).1,
    (c9_meta_not_found_error ⟨none, [("a", JVal.num 1)], []⟩ "inc" none rfl).2.1⟩

/-- C2 counterexample: an action implementation returning the plain
value `5` yields a result stream whose single delivered value is the
empty object, not `5` (and the stream never terminates); and an
implementation throwing synchronously makes `dispatchInternal` itself
return the error — the result is not a stream terminating with that
error. -/
theorem c2_result_normalization_counterexample :
    (dispatchInternal storePlain "add" none).1 =
      .ok ⟨[JVal.obj []], .pending⟩ ∧
    JVal.obj [] ≠ JVal.num 5 ∧
    (dispatchInternal storeThrow "bad" none).1 = .error (.implThrow "boom") ∧
    (Except.error (DispatchError.implThrow "boom") : Except DispatchError RStream) ≠
      .ok ⟨[], .error "boom"⟩ :=
  ⟨rfl, by decide, rfl, nofun⟩

/-- C2 (amended): for a registered action, the dispatch result is — a
single-element stream delivering the empty object (the returned value is
discarded) and never terminating, when the implementation returns a
plain value; the single-element stream of the resolved value, when it
returns a `Promise`; the implementation's stream passed through
unchanged, when it returns an `Observable`; and when the implementation
throws synchronously, the throw escapes the dispatch call itself instead
of terminating the stream.  In every case the store keeps whatever
snapshot the implementation left. -/
theorem c2_result_normalization (store : ModelStore) (m : StoreMetaInfo)
    (impl : ActionImpl) (ty : String) (payload : Option JVal)
    (hmeta : store.meta = some m) (hact : lookupAction ty m.actions = some impl) :
    (∀ v s1, impl store.snapshot payload = (.ok (.plain v), s1) →
      dispatchInternal store ty payload =
        (.ok ⟨[JVal.obj []], .pending⟩, { store with snapshot := s1 })) ∧
    (∀ p s1, impl store.snapshot payload = (.ok (.promise p), s1) →
      dispatchInternal store ty payload =
        (.ok (fromPromise p), { store with snapshot := s1 })) ∧
    (∀ rs s1, impl store.snapshot payload = (.ok (.observable rs), s1) →
      dispatchInternal store ty payload =
        (.ok rs, { store with snapshot := s1 })) ∧
    (∀ msg s1, impl store.snapshot payload = (.error msg, s1) →
      dispatchInternal store ty payload =
        (.error (.implThrow msg), { store with snapshot := s1 })) := by
  obtain ⟨mo, snap, cache⟩ := store
  have hm : mo = some m := hmeta
  subst hm
  refine ⟨?_, ?_, ?_, ?_⟩
  · intro v s1 himpl
    have h2 : impl snap payload = (Except.ok (ImplReturn.plain v), s1) := himpl
    simp [dispatchInternal, hact, h2, normalizeResult, shareReplayStream,
      plainResultStream]
  · intro p s1 himpl
    have h2 : impl snap payload = (Except.ok (ImplReturn.promise p), s1) := himpl
    simp [dispatchInternal, hact, h2, normalizeResult, shareReplayStream,
      mapIdStream_id]
  · intro rs s1 himpl
    have h2 : impl snap payload = (Except.ok (ImplReturn.observable rs), s1) := himpl
    simp [dispatchInternal, hact, h2, normalizeResult, shareReplayStream,
      mapIdStream_id]
  · intro msg s1 himpl
    have h2 : impl snap payload = (Except.error msg, s1) := himpl
    simp [dispatchInternal, hact, h2]

/-- C2 witness: the plain-value case at the concrete store
`storePlain`. -/
theorem c2_result_normalization_witness :
    dispatchInternal storePlain "add" none =
      (.ok ⟨[JVal.obj []], .pending⟩, { storePlain with snapshot := [] }) :=
  (c2_result_normalization storePlain ⟨[("add", plainFive)]⟩ plainFive "add" none
      rfl rfl).1 (JVal.num 5) [] rfl
